import Mathlib

/-!
Verification of the TodoDOS terminal task manager (src/index.js) against its
specification. The command-driven core is shallowly embedded: the mutable
globals `tasks`, `selectedIndex` and `searchTerm` become an explicit
`AppState`, each JS function that touches them becomes a pure Lean function
of the same name, and the interactive readline prompts become extra string
arguments (one per sub-prompt answer). Console output, Google Sheets access
and process control are out of scope, as the spec itself declares.

JS string primitives used by the code are modelled over `List Char`:
`trim`, `toLowerCase`, `split` and `includes` are reimplemented below so
that every definition is executable by kernel reduction. Case mapping is
the ASCII mapping of `Char.toLower`, which agrees with JS `toLowerCase` on
all inputs appearing in the program and the claims.
-/

namespace TodoDOS

/-- JS `String.prototype.trim`: drop leading and trailing whitespace. -/
def jsTrim (s : String) : String :=
  String.mk (((s.toList.dropWhile Char.isWhitespace).reverse.dropWhile Char.isWhitespace).reverse)

/-- JS `String.prototype.toLowerCase`, ASCII case mapping. -/
def jsToLower (s : String) : String :=
  String.mk (s.toList.map Char.toLower)

/-- JS `String.prototype.split` with a one-character separator: returns the
(never empty) list of separator-free segments, keeping empty segments. -/
def splitOnChar (sep : Char) : List Char → List (List Char)
  | [] => [[]]
  | c :: rest =>
    let r := splitOnChar sep rest
    if c == sep then [] :: r
    else
      match r with
      | h :: t => (c :: h) :: t
      | [] => [[c]]

/-- JS `s.split(sep)` for a one-character separator. -/
def jsSplit (sep : Char) (s : String) : List String :=
  (splitOnChar sep s.toList).map String.mk

/-- JS `s.includes(sub)`: substring containment. -/
def jsIncludes (s sub : String) : Bool :=
  decide (sub.toList <:+: s.toList)

/-- Numeric value of a digit string (\`parseInt\` on an all-digit string). -/
def natOfDigits (cs : List Char) : Nat :=
  cs.foldl (fun a c => a * 10 + (c.toNat - 48)) 0

/-- JS `parseInt` on an already trimmed, lowercased command string, decimal
only: optional sign, then the longest leading digit run; no digits means
NaN (`none`). The automatic hexadecimal `0x` prefix detection of `parseInt`
is not modelled; no input relevant to the claims starts with `0x`. -/
def parseIntJS (s : String) : Option Int :=
  let core : List Char → Option Nat := fun cs =>
    let ds := cs.takeWhile Char.isDigit
    if ds.isEmpty then none else some (natOfDigits ds)
  match s.toList with
  | '-' :: rest => (core rest).map (fun n => -(n : Int))
  | '+' :: rest => (core rest).map (fun n => (n : Int))
  | cs => (core cs).map (fun n => (n : Int))

/-- One task record, exactly the fields built by `addTask` / `loadTasks` in
src/index.js. Status and priority are the raw German strings of the source
(`offen`/`erledigt`, `normal`/`hoch`/`niedrig`). -/
structure Task where
  id : Nat
  title : String
  status : String
  priority : String
  dueDate : String
  tags : List String
deriving DecidableEq

/-- The mutable globals of src/index.js: `tasks`, `selectedIndex`,
`searchTerm`. `selectedIndex` is an `Int` because the source can drive it
to `-1` (`Math.min(selectedIndex, tasks.length - 1)` on an emptied list). -/
structure AppState where
  tasks : List Task
  selectedIndex : Int
  searchTerm : String
deriving DecidableEq

/-- src/index.js `addTask` (lines 176-185): append a record with
`id = tasks.length + 1` and status `offen`. -/
def addTask (title priority dueDate : String) (tags : List String) (ts : List Task) : List Task :=
  ts ++ [{ id := ts.length + 1, title := title, status := "offen",
           priority := priority, dueDate := dueDate, tags := tags }]

/-- The `tasks.forEach((task, i) => task.id = i + 1)` renumbering loop of
`deleteTask`, started at position `n`. -/
def reindexFrom (n : Nat) : List Task → List Task
  | [] => []
  | t :: ts => { t with id := n + 1 } :: reindexFrom (n + 1) ts

/-- src/index.js `deleteTask` (lines 188-194): `splice(index, 1)` (a no-op
when `index` is past the end, as in JS), then renumber every id. -/
def deleteTask (index : Nat) (ts : List Task) : List Task :=
  reindexFrom 0 (ts.eraseIdx index)

/-- Status flip of `completeTask` (line 217). -/
def toggleStatusTask (t : Task) : Task :=
  { t with status := if t.status = "erledigt" then "offen" else "erledigt" }

/-- In-place update of the record at `index`, the JS `tasks[index].f = v`
pattern. Out-of-range indices leave the list unchanged; the source would
fault there, and every caller guards the index first. -/
def modifyAt (f : Task → Task) : Nat → List Task → List Task
  | _, [] => []
  | 0, t :: ts => f t :: ts
  | n + 1, t :: ts => t :: modifyAt f n ts

/-- src/index.js `completeTask` (lines 216-218): flip
`offen` to `erledigt` and back on the record at `index`. -/
def completeTask (index : Nat) (ts : List Task) : List Task :=
  modifyAt toggleStatusTask index ts

/-- The title predicate of the search filter (line 293):
`task.title.toLowerCase().includes(searchTerm.toLowerCase())`. -/
def titleMatches (searchTerm : String) (t : Task) : Bool :=
  jsIncludes (jsToLower t.title) (jsToLower searchTerm)

/-- The `filteredTasks` expression of `renderMainView` (lines 292-294): the
filtered view when a search term is active, the whole list otherwise. -/
def filteredTasks (tasks : List Task) (searchTerm : String) : List Task :=
  if searchTerm.length > 0 then tasks.filter (titleMatches searchTerm) else tasks

/-- Leap year rule of the proleptic Gregorian calendar used by JS `Date`. -/
def isLeap (y : Nat) : Bool :=
  y % 4 == 0 && (y % 100 != 0 || y % 400 == 0)

/-- Length of month `m` (1-12) in year `y`. -/
def daysInMonth (y m : Nat) : Nat :=
  if m = 2 then (if isLeap y then 29 else 28)
  else if m = 4 ∨ m = 6 ∨ m = 9 ∨ m = 11 then 30 else 31

/-- Is `y-m-d` an actual calendar date? -/
def validCivil (y m d : Nat) : Bool :=
  decide (1 ≤ m ∧ m ≤ 12 ∧ 1 ≤ d ∧ d ≤ daysInMonth y m)

/-- Day count of civil date `y-m-d` since 0000-03-01 (standard era-based
conversion, all operands nonnegative). -/
def daysFromCivil0 (y m d : Nat) : Nat :=
  let y1 := if m ≤ 2 then y - 1 else y
  let era := y1 / 400
  let yoe := y1 % 400
  let mp := if m > 2 then m - 3 else m + 9
  let doy := (153 * mp + 2) / 5 + d - 1
  let doe := yoe * 365 + yoe / 4 - yoe / 100 + doy
  era * 146097 + doe

/-- Inverse of `daysFromCivil0`: civil date `(year, month, day)` of a day
count since 0000-03-01. -/
def civilFromDays0 (z : Nat) : Nat × Nat × Nat :=
  let era := z / 146097
  let doe := z % 146097
  let yoe := (doe - doe / 1460 + doe / 36524 - doe / 146096) / 365
  let y := yoe + era * 400
  let doy := doe - (365 * yoe + yoe / 4 - yoe / 100)
  let mp := (5 * doy + 2) / 153
  let d := doy - (153 * mp + 2) / 5 + 1
  let m := if mp < 10 then mp + 3 else mp - 9
  (if m ≤ 2 then y + 1 else y, m, d)

/-- JS `new Date(year, monthIndex, day)` date normalization: years 0-99 map
to 1900-1999, an out-of-range month index rolls the year, an out-of-range
day rolls the month (so February 31 becomes March 2 or 3). The civil date
of the resulting time value is returned. The source then formats it with
`toISOString()`, which reads the time value in UTC; the model takes the
local timezone to be UTC (a non-UTC zone would only shift some results by
one day, never restore a rejection). -/
def jsMakeDate (y : Nat) (mIdx : Int) (d : Nat) : Nat × Nat × Nat :=
  let yBase : Int := if y ≤ 99 then (y : Int) + 1900 else (y : Int)
  let yAdj : Nat := (yBase + Int.fdiv mIdx 12).toNat
  let mAdj : Nat := (Int.emod mIdx 12).toNat
  civilFromDays0 (daysFromCivil0 yAdj (mAdj + 1) 1 + d - 1)

/-- Digit character of `n % 10`. -/
def digitChar (n : Nat) : Char :=
  match n with
  | 0 => '0' | 1 => '1' | 2 => '2' | 3 => '3' | 4 => '4'
  | 5 => '5' | 6 => '6' | 7 => '7' | 8 => '8' | _ => '9'

/-- Two-digit zero-padded component of `toISOString`. -/
def pad2 (n : Nat) : List Char :=
  [digitChar (n / 10 % 10), digitChar (n % 10)]

/-- Year component of `toISOString`: four digits up to 9999, the expanded
`+YYYYYY` form above (negative years cannot arise from the parsed inputs). -/
def padYear (y : Nat) : List Char :=
  if y ≤ 9999 then
    [digitChar (y / 1000 % 10), digitChar (y / 100 % 10), digitChar (y / 10 % 10), digitChar (y % 10)]
  else
    '+' :: [digitChar (y / 100000 % 10), digitChar (y / 10000 % 10), digitChar (y / 1000 % 10),
            digitChar (y / 100 % 10), digitChar (y / 10 % 10), digitChar (y % 10)]

/-- `parsedDate.toISOString().split('T')[0]`: the canonical `YYYY-MM-DD`. -/
def formatISO (ymd : Nat × Nat × Nat) : String :=
  String.mk (padYear ymd.1 ++ '-' :: pad2 ymd.2.1 ++ '-' :: pad2 ymd.2.2)

/-- Does `s` match `^\d{4}-\d{2}-\d{2}$`? -/
def matchYMD (s : String) : Bool :=
  match s.toList with
  | [c1, c2, c3, c4, h1, c5, c6, h2, c7, c8] =>
    c1.isDigit && c2.isDigit && c3.isDigit && c4.isDigit && (h1 == '-') &&
    c5.isDigit && c6.isDigit && (h2 == '-') && c7.isDigit && c8.isDigit
  | _ => false

/-- One or two digit characters. -/
def isDigits1to2 (s : String) : Bool :=
  (s.toList.length == 1 || s.toList.length == 2) && s.toList.all Char.isDigit

/-- Exactly four digit characters. -/
def isDigits4 (s : String) : Bool :=
  s.toList.length == 4 && s.toList.all Char.isDigit

/-- Does `s` match `^\d{1,2}\.\d{1,2}\.\d{4}$`? Stated over the dot-split
segments, which is equivalent because segments are dot-free. -/
def matchDMY (s : String) : Bool :=
  match jsSplit '.' s with
  | [d, m, y] => isDigits1to2 d && isDigits1to2 m && isDigits4 y
  | _ => false

/-- Does `s` match `^\d{1,2}\.\d{1,2}$`? -/
def matchDM (s : String) : Bool :=
  match jsSplit '.' s with
  | [d, m] => isDigits1to2 d && isDigits1to2 m
  | _ => false

/-- The due-date parsing block shared by `handleAddTask` (lines 517-539) and
`handleEditTask` (lines 618-636), applied to the trimmed entry `dateStr`:
`YYYY-MM-DD` goes through `new Date(dateStr)` (ISO string parsing, which
does reject impossible calendar dates), the two dot formats go through
`new Date(year, month - 1, day)` (numeric construction, which rolls
overflowing components over instead of rejecting and never yields an
invalid time value for these bounded inputs); a successful parse is
re-emitted as `toISOString().split('T')[0]`, anything else is `none`. -/
def parseDueDate (dateStr : String) (currentYear : Nat) : Option String :=
  if matchYMD dateStr then
    match jsSplit '-' dateStr with
    | [ys, ms, ds] =>
      if validCivil (natOfDigits ys.toList) (natOfDigits ms.toList) (natOfDigits ds.toList) then
        some dateStr
      else none
    | _ => none
  else if matchDMY dateStr then
    match jsSplit '.' dateStr with
    | [ds, ms, ys] =>
      some (formatISO (jsMakeDate (natOfDigits ys.toList)
        ((natOfDigits ms.toList : Int) - 1) (natOfDigits ds.toList)))
    | _ => none
  else if matchDM dateStr then
    match jsSplit '.' dateStr with
    | [ds, ms] =>
      some (formatISO (jsMakeDate currentYear
        ((natOfDigits ms.toList : Int) - 1) (natOfDigits ds.toList)))
    | _ => none
  else none

/-- Tag entry parsing (lines 543-546 and 647):
`split(',').map(trim).filter(nonempty)`. -/
def parseTags (tagsIn : String) : List String :=
  ((jsSplit ',' tagsIn).map jsTrim).filter (fun t => t.length > 0)

/-- src/index.js `handleQuickAdd` (lines 197-210) with the prompt answer as
argument: add a title-only task with the `addTask` defaults, or warn and do
nothing when the trimmed title is empty. -/
def handleQuickAdd (titleIn : String) (st : AppState) : AppState :=
  if jsTrim titleIn ≠ "" then
    { st with tasks := addTask (jsTrim titleIn) "normal" "" [] st.tasks }
  else st

/-- src/index.js `handleAddTask` (lines 490-569) with the four prompt
answers as arguments and the current year as a parameter: abort on an empty
trimmed title; fall back to priority `normal` on empty or invalid entry;
leave the due date empty on empty or unparseable entry; drop empty tag
segments. -/
def handleAddTask (titleIn priorityIn dueIn tagsIn : String) (currentYear : Nat)
    (st : AppState) : AppState :=
  if jsTrim titleIn = "" then st
  else
    let taskPriority :=
      if jsToLower (jsTrim priorityIn) = "" then "normal" else jsToLower (jsTrim priorityIn)
    let prio :=
      if taskPriority = "normal" ∨ taskPriority = "hoch" ∨ taskPriority = "niedrig" then
        taskPriority
      else "normal"
    let formattedDate :=
      if jsTrim dueIn = "" then ""
      else
        match parseDueDate (jsTrim dueIn) currentYear with
        | some d => d
        | none => ""
    let taskTags := if jsTrim tagsIn = "" then [] else parseTags tagsIn
    { st with tasks := addTask (jsTrim titleIn) prio formattedDate taskTags st.tasks }

/-- Title sub-prompt of `handleEditTask` (lines 599-602): a non-empty
trimmed entry overwrites the title, an empty one leaves it unchanged. -/
def editTitleStep (newTitle : String) (t : Task) : Task :=
  if jsTrim newTitle ≠ "" then { t with title := jsTrim newTitle } else t

/-- Priority sub-prompt of `handleEditTask` (lines 605-609): only a
non-empty entry that lowercases to one of the three valid priorities is
applied; anything else leaves the field unchanged. -/
def editPriorityStep (newPriority : String) (t : Task) : Task :=
  if jsTrim newPriority ≠ "" ∧
      (jsToLower (jsTrim newPriority) = "normal" ∨ jsToLower (jsTrim newPriority) = "hoch" ∨
        jsToLower (jsTrim newPriority) = "niedrig") then
    { t with priority := jsToLower (jsTrim newPriority) }
  else t

/-- Due-date sub-prompt of `handleEditTask` (lines 612-637): empty entry
leaves the field, the literal token `keine` clears it, a parsed date
replaces it, an unparseable one warns and leaves it unchanged. -/
def editDueDateStep (newDueDate : String) (currentYear : Nat) (t : Task) : Task :=
  if jsTrim newDueDate ≠ "" then
    if jsToLower (jsTrim newDueDate) = "keine" then { t with dueDate := "" }
    else
      match parseDueDate (jsTrim newDueDate) currentYear with
      | some d => { t with dueDate := d }
      | none => t
  else t

/-- Tag sub-prompt of `handleEditTask` (lines 641-649): empty entry leaves
the field, the literal token `keine` empties the tag list, anything else is
split, trimmed and filtered. -/
def editTagsStep (newTags : String) (t : Task) : Task :=
  if jsTrim newTags ≠ "" then
    if jsToLower (jsTrim newTags) = "keine" then { t with tags := [] }
    else { t with tags := parseTags newTags }
  else t

/-- The per-field update sequence of `handleEditTask` (lines 599-649)
applied to one record: the four sub-prompts run in order, each mutating the
same record in place. -/
def editTaskFields (newTitle newPriority newDueDate newTags : String) (currentYear : Nat)
    (t : Task) : Task :=
  editTagsStep newTags (editDueDateStep newDueDate currentYear (editPriorityStep newPriority (editTitleStep newTitle t)))

/-- src/index.js `handleEditTask` (lines 587-658): guard
`tasks.length === 0 || selectedIndex >= tasks.length`, then edit the record
at `selectedIndex` of the full task list in place. -/
def handleEditTask (newTitle newPriority newDueDate newTags : String) (currentYear : Nat)
    (st : AppState) : AppState :=
  if st.tasks.length = 0 ∨ (st.tasks.length : Int) ≤ st.selectedIndex then st
  else
    { st with tasks := (modifyAt (editTaskFields newTitle newPriority newDueDate newTags currentYear) st.selectedIndex.toNat st.tasks) }

/-- src/index.js `handleToggleTask` (lines 661-671): guard, then flip the
status of the record at `selectedIndex` of the full task list. -/
def handleToggleTask (st : AppState) : AppState :=
  if st.tasks.length = 0 ∨ (st.tasks.length : Int) ≤ st.selectedIndex then st
  else { st with tasks := completeTask st.selectedIndex.toNat st.tasks }

/-- src/index.js `handleDeleteTask` (lines 572-584): with a non-empty list
and `0 <= selectedIndex < tasks.length`, delete at `selectedIndex` of the
full task list and re-clamp with `Math.min(selectedIndex, tasks.length - 1)`
over the new full length (which is `-1` when the list becomes empty). -/
def handleDeleteTask (st : AppState) : AppState :=
  if st.tasks.length = 0 then st
  else if 0 ≤ st.selectedIndex ∧ st.selectedIndex < (st.tasks.length : Int) then
    let ts2 := deleteTask st.selectedIndex.toNat st.tasks
    { st with tasks := ts2, selectedIndex := min st.selectedIndex ((ts2.length : Int) - 1) }
  else st

/-- src/index.js `handleSearch` (lines 674-688): store the trimmed entry as
the new search term, touching nothing else (in particular `selectedIndex`
is not re-clamped). -/
def handleSearch (term : String) (st : AppState) : AppState :=
  { st with searchTerm := jsTrim term }

/-- The numeric-jump branch of `handleCommand` (lines 466-474): the entered
number `n` minus one is accepted as the new `selectedIndex` iff it lies in
`[0, tasks.length)` of the full task list; otherwise the selection is left
unchanged with an error message. -/
def jumpTo (n : Int) (st : AppState) : AppState :=
  let num := n - 1
  if 0 ≤ num ∧ num < (st.tasks.length : Int) then { st with selectedIndex := num } else st

/-- src/index.js `renderDetailsView` (lines 332-363): the record shown is
`tasks[selectedIndex]` of the full task list, guarded by
`tasks.length === 0 || selectedIndex >= tasks.length`. -/
def detailsTask (st : AppState) : Option Task :=
  if st.tasks.length = 0 ∨ (st.tasks.length : Int) ≤ st.selectedIndex then none
  else st.tasks[st.selectedIndex.toNat]?

/-- The command table of `handleCommand` (lines 375-478), one constructor
per action. -/
inductive Cmd where
  | quit | help | add | quickAdd | delete | edit | toggle | save | reload
  | search | details | up | down | home | goEnd | clear | emptyInput
  | jump (n : Int)
  | unknown
deriving DecidableEq

/-- Command resolution of `handleCommand`: exact match of the trimmed,
lowercased input against the alias table, then the empty / numeric /
unknown fallback chain of the `default` branch. -/
def resolveCommand (input : String) : Cmd :=
  match jsToLower (jsTrim input) with
  | "quit" | "q" | "exit" => Cmd.quit
  | "help" | "h" => Cmd.help
  | "add" | "a" => Cmd.add
  | "quick" | "qa" => Cmd.quickAdd
  | "delete" | "d" => Cmd.delete
  | "edit" | "e" => Cmd.edit
  | "toggle" | "t" | "space" => Cmd.toggle
  | "save" | "s" => Cmd.save
  | "reload" | "r" => Cmd.reload
  | "search" | "/" => Cmd.search
  | "details" | "show" => Cmd.details
  | "up" | "k" => Cmd.up
  | "down" | "j" => Cmd.down
  | "home" => Cmd.home
  | "end" => Cmd.goEnd
  | "clear" => Cmd.clear
  | _ =>
    if jsTrim input = "" then Cmd.emptyInput
    else
      match parseIntJS (jsToLower (jsTrim input)) with
      | some n => Cmd.jump n
      | none => Cmd.unknown

/-- A structural mutation of the task list, for stating properties over
whole operation sequences. -/
inductive Op where
  | add (title priority dueDate : String) (tags : List String)
  | del (index : Nat)

/-- Apply one `Op` through the corresponding TaskStore operation. -/
def applyOp (ts : List Task) : Op → List Task
  | Op.add t p d tg => addTask t p d tg ts
  | Op.del i => deleteTask i ts

/-- Apply a sequence of `Op`s left to right. -/
def applyOps (ops : List Op) (ts : List Task) : List Task :=
  ops.foldl applyOp ts

end TodoDOS

namespace TodoDOS

/-! ## Helper lemmas -/

theorem length_pos_of_ne_empty (s : String) (h : s ≠ "") : 0 < s.length := by
  cases s with
  | mk data =>
    cases data with
    | nil => exact absurd rfl h
    | cons a l => simp [String.length]

theorem reindexFrom_getElem (ts : List Task) :
    ∀ (n i : Nat) (t : Task), (reindexFrom n ts)[i]? = some t → t.id = n + i + 1 := by
  induction ts with
  | nil => intro n i t h; simp [reindexFrom] at h
  | cons a l ih =>
    intro n i t h
    cases i with
    | zero =>
      simp only [reindexFrom, List.getElem?_cons_zero, Option.some.injEq] at h
      rw [← h]
    | succ j =>
      simp only [reindexFrom, List.getElem?_cons_succ] at h
      have := ih (n + 1) j t h
      omega

theorem reindexFrom_length (ts : List Task) : ∀ n, (reindexFrom n ts).length = ts.length := by
  induction ts with
  | nil => intro n; rfl
  | cons a l ih => intro n; simp [reindexFrom, ih]

theorem deleteTask_getElem (index : Nat) (ts : List Task) (i : Nat) (t : Task)
    (h : (deleteTask index ts)[i]? = some t) : t.id = i + 1 := by
  have := reindexFrom_getElem (ts.eraseIdx index) 0 i t h
  omega

theorem modifyAt_getElem_self (f : Task → Task) (ts : List Task) :
    ∀ (i : Nat) (t : Task), ts[i]? = some t → (modifyAt f i ts)[i]? = some (f t) := by
  induction ts with
  | nil => intro i t h; simp at h
  | cons a l ih =>
    intro i t h
    cases i with
    | zero => simp at h; simp [modifyAt, h]
    | succ j =>
      simp only [List.getElem?_cons_succ] at h
      simpa [modifyAt] using ih j t h

theorem modifyAt_getElem_ne (f : Task → Task) (ts : List Task) :
    ∀ (i j : Nat), j ≠ i → (modifyAt f i ts)[j]? = ts[j]? := by
  induction ts with
  | nil => intro i j _; cases i <;> rfl
  | cons a l ih =>
    intro i j hne
    cases i with
    | zero =>
      cases j with
      | zero => exact absurd rfl hne
      | succ k => simp [modifyAt]
    | succ m =>
      cases j with
      | zero => simp [modifyAt]
      | succ k =>
        simp only [modifyAt, List.getElem?_cons_succ]
        exact ih m k (by omega)

theorem toggleStatusTask_involution (t : Task) (h : t.status = "offen") :
    toggleStatusTask (toggleStatusTask t) = t := by
  cases t
  simp_all [toggleStatusTask]

theorem completeTask_involution (ts : List Task) :
    ∀ (i : Nat) (t : Task), ts[i]? = some t → t.status = "offen" →
      completeTask i (completeTask i ts) = ts := by
  induction ts with
  | nil => intro i t h; simp at h
  | cons a l ih =>
    intro i t h hopen
    cases i with
    | zero =>
      obtain rfl : a = t := by simpa using h
      simp [completeTask, modifyAt, toggleStatusTask_involution _ hopen]
    | succ j =>
      simp only [List.getElem?_cons_succ] at h
      have := ih j t h hopen
      simpa [completeTask, modifyAt] using this

/-! ## Claim theorems -/

/-- Claim C3 (confirmed): for every sequence of add and delete operations,
after each delete the task ids are dense, contiguous and 1-based: the
record stored at index `i` has `id = i + 1`, because `deleteTask` removes
the record at the given index and renumbers every remaining record. -/
theorem claim_C3_ids_dense_after_delete (ops : List Op) (index i : Nat) (t : Task)
    (h : (applyOps (ops ++ [Op.del index]) [])[i]? = some t) : t.id = i + 1 := by
  have heq : applyOps (ops ++ [Op.del index]) [] = deleteTask index (applyOps ops []) := by
    simp [applyOps, List.foldl_append, applyOp]
  rw [heq] at h
  exact deleteTask_getElem index _ i t h

/-- Witness for C3, the scenario of spec section 8: add two tasks, delete at
index 0, the remaining record has id 1. -/
theorem claim_C3_witness :
    (applyOps ([Op.add "Buy milk" "normal" "" [],
        Op.add "Pay rent" "hoch" "2024-03-01" ["bills"]] ++ [Op.del 0]) [])[0]?
      = some ⟨1, "Pay rent", "offen", "hoch", "2024-03-01", ["bills"]⟩
    ∧ (⟨1, "Pay rent", "offen", "hoch", "2024-03-01", ["bills"]⟩ : Task).id = 0 + 1 :=
  ⟨by decide, claim_C3_ids_dense_after_delete
    [Op.add "Buy milk" "normal" "" [], Op.add "Pay rent" "hoch" "2024-03-01" ["bills"]]
    0 0 ⟨1, "Pay rent", "offen", "hoch", "2024-03-01", ["bills"]⟩ (by decide)⟩

/-- Claim C5 (confirmed): filtering with the empty search term is the
identity on every task list. -/
theorem claim_C5_empty_term_identity (ts : List Task) : filteredTasks ts "" = ts := rfl

/-- Claim C6 (confirmed): for every non-empty search term the filtered
result is exactly `List.filter` of the title predicate, hence an
order-preserving subsequence whose members are exactly the tasks whose
lowercased title contains the lowercased term as a substring; only the
title field is consulted. -/
theorem claim_C6_filter_characterization (ts : List Task) (term : String) (h : term ≠ "") :
    filteredTasks ts term = ts.filter (titleMatches term)
    ∧ (filteredTasks ts term).Sublist ts
    ∧ (∀ t, t ∈ filteredTasks ts term ↔ t ∈ ts ∧ titleMatches term t = true)
    ∧ (∀ t, titleMatches term t = true ↔ (jsToLower term).toList <:+: (jsToLower t.title).toList)
    ∧ (∀ t u, t.title = u.title → titleMatches term t = titleMatches term u) := by
  have hp : term.length > 0 := length_pos_of_ne_empty term h
  have hfe : filteredTasks ts term = ts.filter (titleMatches term) := by
    simp [filteredTasks, hp]
  refine ⟨hfe, ?_, ?_, ?_, ?_⟩
  · rw [hfe]; exact List.filter_sublist ts
  · intro t; rw [hfe]; exact List.mem_filter
  · intro t; simp [titleMatches, jsIncludes]
  · intro t u htu; simp [titleMatches, htu]

/-- Witness for C6 at the Alpha/Beta scenario with term `alp`. -/
theorem claim_C6_witness :
    ("alp" : String) ≠ ""
    ∧ filteredTasks [⟨1, "Alpha", "offen", "normal", "", []⟩,
        ⟨2, "Beta", "offen", "normal", "", []⟩] "alp"
      = List.filter (titleMatches "alp") [⟨1, "Alpha", "offen", "normal", "", []⟩,
          ⟨2, "Beta", "offen", "normal", "", []⟩] :=
  ⟨by decide, (claim_C6_filter_characterization
    [⟨1, "Alpha", "offen", "normal", "", []⟩, ⟨2, "Beta", "offen", "normal", "", []⟩]
    "alp" (by decide)).1⟩

/-- Claim C7 (confirmed): toggling an open (`offen`) task makes it done
(`erledigt`); toggling the same position again restores the list exactly,
and both times the id, title, priority, due date and tags of the task and
every other entry of the list are unchanged. -/
theorem claim_C7_toggle_involution (ts : List Task) (i : Nat) (t : Task)
    (hget : ts[i]? = some t) (hopen : t.status = "offen") :
    (completeTask i ts)[i]? = some (toggleStatusTask t)
    ∧ (toggleStatusTask t).status = "erledigt"
    ∧ (toggleStatusTask t).id = t.id ∧ (toggleStatusTask t).title = t.title
    ∧ (toggleStatusTask t).priority = t.priority ∧ (toggleStatusTask t).dueDate = t.dueDate
    ∧ (toggleStatusTask t).tags = t.tags
    ∧ (∀ j, j ≠ i → (completeTask i ts)[j]? = ts[j]?)
    ∧ completeTask i (completeTask i ts) = ts := by
  refine ⟨modifyAt_getElem_self toggleStatusTask ts i t hget, ?_, rfl, rfl, rfl, rfl, rfl,
    fun j hj => modifyAt_getElem_ne toggleStatusTask ts i j hj,
    completeTask_involution ts i t hget hopen⟩
  simp [toggleStatusTask, hopen]

/-- Witness for C7 on a concrete singleton list. -/
theorem claim_C7_witness :
    ([⟨1, "Alpha", "offen", "normal", "", []⟩] : List Task)[0]?
      = some ⟨1, "Alpha", "offen", "normal", "", []⟩
    ∧ (⟨1, "Alpha", "offen", "normal", "", []⟩ : Task).status = "offen"
    ∧ completeTask 0 (completeTask 0 [⟨1, "Alpha", "offen", "normal", "", []⟩])
      = [⟨1, "Alpha", "offen", "normal", "", []⟩] :=
  ⟨by decide, by decide, (claim_C7_toggle_involution [⟨1, "Alpha", "offen", "normal", "", []⟩]
    0 ⟨1, "Alpha", "offen", "normal", "", []⟩ (by decide) (by decide)).2.2.2.2.2.2.2.2⟩

theorem deleteTask_length (i : Nat) (ts : List Task) (h : i < ts.length) :
    (deleteTask i ts).length = ts.length - 1 := by
  simp [deleteTask, reindexFrom_length, List.length_eraseIdx, h]

/-- Counterexample to claim C1 as stated: with tasks Alpha and Beta and
active search term alp the filtered view has length 1, yet the numeric jump
to 2 is accepted (the bound check uses the full list length 2) and moves
the selection, and a subsequent delete removes Beta, which does not match
the filter, instead of the selected matching task Alpha. -/
theorem claim_C1_counterexample :
    (filteredTasks [⟨1, "Alpha", "offen", "normal", "", []⟩,
        ⟨2, "Beta", "offen", "normal", "", []⟩] "alp").length = 1
    ∧ jumpTo 2 ⟨[⟨1, "Alpha", "offen", "normal", "", []⟩,
        ⟨2, "Beta", "offen", "normal", "", []⟩], 0, "alp"⟩
      = ⟨[⟨1, "Alpha", "offen", "normal", "", []⟩,
          ⟨2, "Beta", "offen", "normal", "", []⟩], 1, "alp"⟩
    ∧ (handleDeleteTask ⟨[⟨1, "Alpha", "offen", "normal", "", []⟩,
        ⟨2, "Beta", "offen", "normal", "", []⟩], 1, "alp"⟩).tasks
      = [⟨1, "Alpha", "offen", "normal", "", []⟩] := by decide

/-- Claim C1 (amended): the selection index always addresses the full task
list, also while a search term is active: a numeric jump input n is
accepted iff `1 ≤ n ≤ tasks.length` (the full length, not the filtered
one), and delete, toggle, edit and the details view all operate on the
record at `selectedIndex` of the full list. -/
theorem claim_C1_selection_full_list (st : AppState) (n : Int)
    (h0 : 0 ≤ st.selectedIndex) (h1 : st.selectedIndex < (st.tasks.length : Int)) :
    (1 ≤ n ∧ n ≤ (st.tasks.length : Int) → jumpTo n st = { st with selectedIndex := n - 1 })
    ∧ (¬(1 ≤ n ∧ n ≤ (st.tasks.length : Int)) → jumpTo n st = st)
    ∧ (handleDeleteTask st).tasks = deleteTask st.selectedIndex.toNat st.tasks
    ∧ detailsTask st = st.tasks[st.selectedIndex.toNat]?
    ∧ (handleToggleTask st).tasks = completeTask st.selectedIndex.toNat st.tasks
    ∧ (∀ a b c d y, (handleEditTask a b c d y st).tasks
        = modifyAt (editTaskFields a b c d y) st.selectedIndex.toNat st.tasks) := by
  have hne : ¬(st.tasks.length = 0) := by omega
  have hguard : ¬(st.tasks.length = 0 ∨ (st.tasks.length : Int) ≤ st.selectedIndex) := by
    push_neg
    exact ⟨hne, by omega⟩
  refine ⟨?_, ?_, ?_, ?_, ?_, ?_⟩
  · intro hn
    simp only [jumpTo]
    rw [if_pos (by omega)]
  · intro hn
    simp only [jumpTo]
    rw [if_neg (by omega)]
  · simp only [handleDeleteTask]
    rw [if_neg hne, if_pos ⟨h0, h1⟩]
  · simp only [detailsTask]
    rw [if_neg hguard]
  · simp only [handleToggleTask]
    rw [if_neg hguard]
  · intro a b c d y
    simp only [handleEditTask]
    rw [if_neg hguard]

/-- Witness for the amended C1 at a concrete in-range state. -/
theorem claim_C1_witness :
    (0 : Int) ≤ 0 ∧ (0 : Int) < 2
    ∧ jumpTo 2 ⟨[⟨1, "Alpha", "offen", "normal", "", []⟩,
        ⟨2, "Beta", "offen", "normal", "", []⟩], 0, "alp"⟩
      = { tasks := [⟨1, "Alpha", "offen", "normal", "", []⟩,
            ⟨2, "Beta", "offen", "normal", "", []⟩],
          selectedIndex := (2 : Int) - 1, searchTerm := "alp" } :=
  ⟨by decide, by decide,
    ((claim_C1_selection_full_list ⟨[⟨1, "Alpha", "offen", "normal", "", []⟩,
        ⟨2, "Beta", "offen", "normal", "", []⟩], 0, "alp"⟩ 2
      (by decide) (by decide)).1 (by decide))⟩

/-- Counterexample to claim C2 as stated: a search-term change performs no
re-clamping, so with tasks Alpha and Beta, selection on Beta (index 1) and
new term alp the filtered view has length 1 but `selectedIndex` stays 1,
past its end; and deleting the only task leaves `selectedIndex = -1`,
which is negative rather than undefined. -/
theorem claim_C2_counterexample :
    (handleSearch "alp" ⟨[⟨1, "Alpha", "offen", "normal", "", []⟩,
        ⟨2, "Beta", "offen", "normal", "", []⟩], 1, ""⟩).selectedIndex = 1
    ∧ (filteredTasks
        (handleSearch "alp" ⟨[⟨1, "Alpha", "offen", "normal", "", []⟩,
          ⟨2, "Beta", "offen", "normal", "", []⟩], 1, ""⟩).tasks
        (handleSearch "alp" ⟨[⟨1, "Alpha", "offen", "normal", "", []⟩,
          ⟨2, "Beta", "offen", "normal", "", []⟩], 1, ""⟩).searchTerm).length = 1
    ∧ ¬((handleSearch "alp" ⟨[⟨1, "Alpha", "offen", "normal", "", []⟩,
          ⟨2, "Beta", "offen", "normal", "", []⟩], 1, ""⟩).selectedIndex
        ≤ ((filteredTasks
            (handleSearch "alp" ⟨[⟨1, "Alpha", "offen", "normal", "", []⟩,
              ⟨2, "Beta", "offen", "normal", "", []⟩], 1, ""⟩).tasks
            (handleSearch "alp" ⟨[⟨1, "Alpha", "offen", "normal", "", []⟩,
              ⟨2, "Beta", "offen", "normal", "", []⟩], 1, ""⟩).searchTerm).length : Int) - 1)
    ∧ (handleDeleteTask ⟨[⟨1, "Alpha", "offen", "normal", "", []⟩], 0, ""⟩).selectedIndex
      = -1 := by decide

/-- Claim C2 (amended): only delete re-clamps the selection, and it clamps
against the FULL list length: after a delete from an in-range selection,
`selectedIndex = min(selectedIndex, tasks.length - 1)` over the new full
length, hence in `[0, length)` while the list stays non-empty and `-1`
(not undefined) when the list empties; add and a search-term change leave
`selectedIndex` unchanged, so it may exceed the filtered length. -/
theorem claim_C2_clamp_full_list (st : AppState) :
    (∀ term, (handleSearch term st).selectedIndex = st.selectedIndex
      ∧ (handleSearch term st).tasks = st.tasks)
    ∧ (∀ a b c d y, (handleAddTask a b c d y st).selectedIndex = st.selectedIndex)
    ∧ (∀ t, (handleQuickAdd t st).selectedIndex = st.selectedIndex)
    ∧ (0 ≤ st.selectedIndex → st.selectedIndex < (st.tasks.length : Int) →
        (handleDeleteTask st).selectedIndex
          = min st.selectedIndex (((handleDeleteTask st).tasks.length : Int) - 1)
        ∧ (handleDeleteTask st).tasks.length = st.tasks.length - 1
        ∧ (0 < (handleDeleteTask st).tasks.length →
            0 ≤ (handleDeleteTask st).selectedIndex
            ∧ (handleDeleteTask st).selectedIndex < ((handleDeleteTask st).tasks.length : Int))
        ∧ ((handleDeleteTask st).tasks.length = 0 →
            (handleDeleteTask st).selectedIndex = -1)) := by
  refine ⟨fun term => ⟨rfl, rfl⟩, ?_, ?_, ?_⟩
  · intro a b c d y
    simp only [handleAddTask]
    split <;> rfl
  · intro t
    simp only [handleQuickAdd]
    split <;> rfl
  · intro h0 h1
    have hne : ¬(st.tasks.length = 0) := by omega
    have hD : handleDeleteTask st
        = { st with tasks := (deleteTask st.selectedIndex.toNat st.tasks), selectedIndex := (min st.selectedIndex (((deleteTask st.selectedIndex.toNat st.tasks).length : Int) - 1)) } := by
      simp only [handleDeleteTask]
      rw [if_neg hne, if_pos ⟨h0, h1⟩]
    have hlen : (deleteTask st.selectedIndex.toNat st.tasks).length = st.tasks.length - 1 := by
      apply deleteTask_length
      omega
    rw [hD]
    refine ⟨rfl, hlen, ?_, ?_⟩
    · intro hpos
      simp only [hlen] at hpos ⊢
      constructor <;> [skip; skip] <;> omega
    · intro hzero
      simp only [hlen] at hzero ⊢
      omega

/-- Witness for the amended C2: deleting the only task of a singleton store
with the selection on it drives the selection to -1. -/
theorem claim_C2_witness :
    (0 : Int) ≤ 0 ∧ (0 : Int) < (([⟨1, "Alpha", "offen", "normal", "", []⟩] : List Task).length : Int)
    ∧ (handleDeleteTask ⟨[⟨1, "Alpha", "offen", "normal", "", []⟩], 0, ""⟩).selectedIndex = -1 := by
  refine ⟨by decide, by decide, ?_⟩
  have h := (claim_C2_clamp_full_list ⟨[⟨1, "Alpha", "offen", "normal", "", []⟩], 0, ""⟩).2.2.2
    (by decide) (by decide)
  exact h.2.2.2 (by decide)

/-- Claim C4 (code bug): entry of the dot formats goes through
`new Date(year, month - 1, day)`, which rolls an invalid calendar date over
into a neighbouring valid one instead of yielding an invalid time value, so
the `isNaN` rejection check never fires for them: `31.02.2024` is silently
canonicalized to `2024-03-02` and `13.13.2024` to `2025-01-13`, and both
the add and the edit dialog store that valid-looking date; only the
`YYYY-MM-DD` format (ISO string parsing) rejects impossible dates as the
claim demands, and non-matching strings are rejected. -/
theorem claim_C4_invalid_date_rollover :
    parseDueDate "31.02.2024" 2024 = some "2024-03-02"
    ∧ parseDueDate "13.13.2024" 2024 = some "2025-01-13"
    ∧ parseDueDate "2024-02-31" 2024 = none
    ∧ parseDueDate "garbage" 2024 = none
    ∧ (handleAddTask "T" "" "31.02.2024" "" 2024 ⟨[], 0, ""⟩).tasks
      = [⟨1, "T", "offen", "normal", "2024-03-02", []⟩]
    ∧ (handleEditTask "" "" "31.02.2024" "" 2024
        ⟨[⟨1, "T", "offen", "normal", "", []⟩], 0, ""⟩).tasks
      = [⟨1, "T", "offen", "normal", "2024-03-02", []⟩] := by decide

/-- Claim C8 (confirmed): adding with an empty trimmed title is a no-op
(the warning branch) for both the full add dialog and the quick add; a
non-empty trimmed title appends exactly one record with
`id = tasks.length + 1` and status `offen`, leaving every existing record
in place. -/
theorem claim_C8_add_title_gate (titleIn priorityIn dueIn tagsIn : String) (y : Nat)
    (st : AppState) :
    (jsTrim titleIn = "" →
      handleQuickAdd titleIn st = st ∧ handleAddTask titleIn priorityIn dueIn tagsIn y st = st)
    ∧ (jsTrim titleIn ≠ "" →
      (∃ r, (handleQuickAdd titleIn st).tasks = st.tasks ++ [r]
        ∧ r.id = st.tasks.length + 1 ∧ r.status = "offen" ∧ r.title = jsTrim titleIn)
      ∧ (∃ r, (handleAddTask titleIn priorityIn dueIn tagsIn y st).tasks = st.tasks ++ [r]
        ∧ r.id = st.tasks.length + 1 ∧ r.status = "offen" ∧ r.title = jsTrim titleIn)) := by
  constructor
  · intro he
    constructor
    · simp [handleQuickAdd, he]
    · simp [handleAddTask, he]
  · intro hne
    constructor
    · simp only [handleQuickAdd, if_pos hne]
      exact ⟨_, rfl, rfl, rfl, rfl⟩
    · simp only [handleAddTask, if_neg hne]
      exact ⟨_, rfl, rfl, rfl, rfl⟩

/-- Witness for C8 with a padded non-empty title on the empty store. -/
theorem claim_C8_witness :
    jsTrim "  Milk " ≠ ""
    ∧ ((∃ r, (handleQuickAdd "  Milk " ⟨[], 0, ""⟩).tasks = [] ++ [r]
        ∧ r.id = ([] : List Task).length + 1 ∧ r.status = "offen" ∧ r.title = jsTrim "  Milk ")
      ∧ (∃ r, (handleAddTask "  Milk " "x" "y" "z" 2024 ⟨[], 0, ""⟩).tasks = [] ++ [r]
        ∧ r.id = ([] : List Task).length + 1 ∧ r.status = "offen" ∧ r.title = jsTrim "  Milk ")) :=
  ⟨by decide, (claim_C8_add_title_gate "  Milk " "x" "y" "z" 2024 ⟨[], 0, ""⟩).2 (by decide)⟩

theorem editTitleStep_id (s : String) (t : Task) : (editTitleStep s t).id = t.id := by
  unfold editTitleStep; split <;> rfl

theorem editTitleStep_status (s : String) (t : Task) : (editTitleStep s t).status = t.status := by
  unfold editTitleStep; split <;> rfl

theorem editTitleStep_priority (s : String) (t : Task) :
    (editTitleStep s t).priority = t.priority := by
  unfold editTitleStep; split <;> rfl

theorem editTitleStep_dueDate (s : String) (t : Task) :
    (editTitleStep s t).dueDate = t.dueDate := by
  unfold editTitleStep; split <;> rfl

theorem editTitleStep_tags (s : String) (t : Task) : (editTitleStep s t).tags = t.tags := by
  unfold editTitleStep; split <;> rfl

theorem editPriorityStep_id (s : String) (t : Task) : (editPriorityStep s t).id = t.id := by
  unfold editPriorityStep; split <;> rfl

theorem editPriorityStep_status (s : String) (t : Task) :
    (editPriorityStep s t).status = t.status := by
  unfold editPriorityStep; split <;> rfl

theorem editPriorityStep_title (s : String) (t : Task) :
    (editPriorityStep s t).title = t.title := by
  unfold editPriorityStep; split <;> rfl

theorem editPriorityStep_dueDate (s : String) (t : Task) :
    (editPriorityStep s t).dueDate = t.dueDate := by
  unfold editPriorityStep; split <;> rfl

theorem editPriorityStep_tags (s : String) (t : Task) : (editPriorityStep s t).tags = t.tags := by
  unfold editPriorityStep; split <;> rfl

theorem editDueDateStep_id (s : String) (y : Nat) (t : Task) :
    (editDueDateStep s y t).id = t.id := by
  unfold editDueDateStep
  repeat' split
  all_goals rfl

theorem editDueDateStep_status (s : String) (y : Nat) (t : Task) :
    (editDueDateStep s y t).status = t.status := by
  unfold editDueDateStep
  repeat' split
  all_goals rfl

theorem editDueDateStep_title (s : String) (y : Nat) (t : Task) :
    (editDueDateStep s y t).title = t.title := by
  unfold editDueDateStep
  repeat' split
  all_goals rfl

theorem editDueDateStep_priority (s : String) (y : Nat) (t : Task) :
    (editDueDateStep s y t).priority = t.priority := by
  unfold editDueDateStep
  repeat' split
  all_goals rfl

theorem editDueDateStep_tags (s : String) (y : Nat) (t : Task) :
    (editDueDateStep s y t).tags = t.tags := by
  unfold editDueDateStep
  repeat' split
  all_goals rfl

theorem editTagsStep_id (s : String) (t : Task) : (editTagsStep s t).id = t.id := by
  unfold editTagsStep
  repeat' split
  all_goals rfl

theorem editTagsStep_status (s : String) (t : Task) : (editTagsStep s t).status = t.status := by
  unfold editTagsStep
  repeat' split
  all_goals rfl

theorem editTagsStep_title (s : String) (t : Task) : (editTagsStep s t).title = t.title := by
  unfold editTagsStep
  repeat' split
  all_goals rfl

theorem editTagsStep_priority (s : String) (t : Task) :
    (editTagsStep s t).priority = t.priority := by
  unfold editTagsStep
  repeat' split
  all_goals rfl

theorem editTagsStep_dueDate (s : String) (t : Task) :
    (editTagsStep s t).dueDate = t.dueDate := by
  unfold editTagsStep
  repeat' split
  all_goals rfl

theorem editTitleStep_of_empty (s : String) (t : Task) (h : jsTrim s = "") :
    editTitleStep s t = t := by
  simp [editTitleStep, h]

theorem editPriorityStep_of_empty (s : String) (t : Task) (h : jsTrim s = "") :
    editPriorityStep s t = t := by
  simp [editPriorityStep, h]

theorem editDueDateStep_of_empty (s : String) (y : Nat) (t : Task) (h : jsTrim s = "") :
    editDueDateStep s y t = t := by
  simp [editDueDateStep, h]

theorem editTagsStep_of_empty (s : String) (t : Task) (h : jsTrim s = "") :
    editTagsStep s t = t := by
  simp [editTagsStep, h]

theorem jsToLower_keine_ne_empty (s : String) (h : jsToLower s = "keine") : s ≠ "" := by
  intro he
  subst he
  exact absurd h (by decide)

theorem editDueDateStep_of_keine (s : String) (y : Nat) (t : Task)
    (h : jsToLower (jsTrim s) = "keine") : editDueDateStep s y t = { t with dueDate := "" } := by
  have hne : jsTrim s ≠ "" := jsToLower_keine_ne_empty _ h
  simp [editDueDateStep, hne, h]

theorem editTagsStep_of_keine (s : String) (t : Task)
    (h : jsToLower (jsTrim s) = "keine") : editTagsStep s t = { t with tags := [] } := by
  have hne : jsTrim s ≠ "" := jsToLower_keine_ne_empty _ h
  simp [editTagsStep, hne, h]

/-- Claim C9 (confirmed): during interactive edit an empty entry leaves the
corresponding field unchanged, the literal clear token `keine`
(case-insensitive) sets the due date to the empty string and the tag list
to the empty list, and the id and status of the task are never touched. -/
theorem claim_C9_edit_empty_and_clear (tl pr du tg : String) (y : Nat) (t : Task) :
    editTaskFields "" "" "" "" y t = t
    ∧ (jsTrim tl = "" → (editTaskFields tl pr du tg y t).title = t.title)
    ∧ (jsTrim pr = "" → (editTaskFields tl pr du tg y t).priority = t.priority)
    ∧ (jsTrim du = "" → (editTaskFields tl pr du tg y t).dueDate = t.dueDate)
    ∧ (jsTrim tg = "" → (editTaskFields tl pr du tg y t).tags = t.tags)
    ∧ (jsToLower (jsTrim du) = "keine" → (editTaskFields tl pr du tg y t).dueDate = "")
    ∧ (jsToLower (jsTrim tg) = "keine" → (editTaskFields tl pr du tg y t).tags = [])
    ∧ (editTaskFields tl pr du tg y t).id = t.id
    ∧ (editTaskFields tl pr du tg y t).status = t.status := by
  refine ⟨rfl, ?_, ?_, ?_, ?_, ?_, ?_, ?_, ?_⟩
  · intro h
    simp [editTaskFields, editTitleStep_of_empty tl _ h, editTagsStep_title,
      editDueDateStep_title, editPriorityStep_title]
  · intro h
    simp [editTaskFields, editPriorityStep_of_empty pr _ h, editTagsStep_priority,
      editDueDateStep_priority, editTitleStep_priority]
  · intro h
    simp [editTaskFields, editDueDateStep_of_empty du y _ h, editTagsStep_dueDate,
      editPriorityStep_dueDate, editTitleStep_dueDate]
  · intro h
    simp [editTaskFields, editTagsStep_of_empty tg _ h, editDueDateStep_tags,
      editPriorityStep_tags, editTitleStep_tags]
  · intro h
    simp [editTaskFields, editDueDateStep_of_keine du y _ h, editTagsStep_dueDate]
  · intro h
    simp [editTaskFields, editTagsStep_of_keine tg _ h]
  · simp [editTaskFields, editTagsStep_id, editDueDateStep_id, editPriorityStep_id,
      editTitleStep_id]
  · simp [editTaskFields, editTagsStep_status, editDueDateStep_status, editPriorityStep_status,
      editTitleStep_status]

/-- Witness for C9: clearing due date and tags with differently cased and
padded clear tokens on a task that has both set. -/
theorem claim_C9_witness :
    jsToLower (jsTrim "KEINE") = "keine" ∧ jsToLower (jsTrim " keine ") = "keine"
    ∧ (editTaskFields "" "" "KEINE" " keine " 2024
        ⟨1, "T", "offen", "hoch", "2024-01-01", ["x"]⟩).dueDate = ""
    ∧ (editTaskFields "" "" "KEINE" " keine " 2024
        ⟨1, "T", "offen", "hoch", "2024-01-01", ["x"]⟩).tags = [] :=
  ⟨by decide, by decide,
    (claim_C9_edit_empty_and_clear "" "" "KEINE" " keine " 2024
      ⟨1, "T", "offen", "hoch", "2024-01-01", ["x"]⟩).2.2.2.2.2.1 (by decide),
    (claim_C9_edit_empty_and_clear "" "" "KEINE" " keine " 2024
      ⟨1, "T", "offen", "hoch", "2024-01-01", ["x"]⟩).2.2.2.2.2.2.1 (by decide)⟩

/-- Claim C10 (confirmed): the interpreter resolves the inputs `quick` and
`qa` (after trimming and lowercasing) to the quick-add action, never to the
unknown-command report, and the quick add appends one task with priority
`normal`, empty due date and empty tags for a non-empty trimmed title and
is a no-op for an empty one. -/
theorem claim_C10_quick_aliases :
    resolveCommand "quick" = Cmd.quickAdd
    ∧ resolveCommand "qa" = Cmd.quickAdd
    ∧ resolveCommand " QA " = Cmd.quickAdd
    ∧ resolveCommand "quick" ≠ Cmd.unknown
    ∧ resolveCommand "qa" ≠ Cmd.unknown
    ∧ (∀ title st, jsTrim title ≠ "" →
        (handleQuickAdd title st).tasks
          = st.tasks ++ [⟨st.tasks.length + 1, jsTrim title, "offen", "normal", "", []⟩])
    ∧ (∀ title st, jsTrim title = "" → handleQuickAdd title st = st) := by
  refine ⟨by decide, by decide, by decide, by decide, by decide, ?_, ?_⟩
  · intro title st hne
    simp only [handleQuickAdd, if_pos hne]
    rfl
  · intro title st he
    simp [handleQuickAdd, he]

/-- Witness for C10: quick add of `Milk` on the empty store. -/
theorem claim_C10_witness :
    jsTrim "Milk" ≠ ""
    ∧ (handleQuickAdd "Milk" ⟨[], 0, ""⟩).tasks
      = [] ++ [⟨([] : List Task).length + 1, jsTrim "Milk", "offen", "normal", "", []⟩] :=
  ⟨by decide, claim_C10_quick_aliases.2.2.2.2.2.1 "Milk" ⟨[], 0, ""⟩ (by decide)⟩
